import Mathlib

/-!
Verification of the gamma-controller program (`src/gamma.py`).

The program is a single-file hotkey-driven display-gamma tool.  We embed
its pure core shallowly:

* `_build_gamma_ramp`  → `gammaCurveValue` / `buildGammaRamp` over `ℝ`
  (the Python code computes `pow(i/255, 1/gamma)` in floating point; the
  embedding uses real arithmetic, with `Int.floor` for Python's
  `int(y*65535 + 0.5)`, which truncates toward zero and coincides with
  floor on the nonnegative values arising here);
* `_set_ramp_on_all_active_displays` → `setRampOnAllActiveDisplays` over an
  abstract `DisplayEnv` describing the outcome of each WinAPI call;
* the `GammaController` methods (`toggle`, `change_gamma`,
  `cycle_color_mode`, `update_display`, `reset_gamma`) → explicit state
  passing on `ControllerState`, returning the list of side `Effect`s
  (ramp applications, config saves, console redraws); gamma values are
  modelled as `ℚ` (the numeric literals 0.1, 4.4, 2.0 of the source);
* the hotkey polling loop of `main` → `pollKey` over a per-key sampled
  `List Bool`.
-/

namespace GammaCtl

/-! ### Ramp builder (`_build_gamma_ramp`) -/

/-- One quantized curve sample: `x = i/255`, `y = x ** (1/gamma)`,
`v = int(y * 65535 + 0.5)` clamped to `[0, 65535]`
(lines 78-82 of `src/gamma.py`). -/
noncomputable def gammaCurveValue (gamma : ℝ) (i : ℕ) : ℤ :=
  max 0 (min 65535 ⌊((i : ℝ) / 255) ^ (1 / gamma) * 65535 + 1 / 2⌋)

/-- The `(R, G, B)` entries of the ramp at index `i`: in mode `"blue"` the
red and green channels are linear `i * 257` and only blue gets the curve;
any other mode (the `else  # all` branch) puts the curve on all three
channels (lines 84-93 of `src/gamma.py`). -/
noncomputable def buildGammaRamp (colorMode : String) (gamma : ℝ) (i : ℕ) :
    ℤ × ℤ × ℤ :=
  if colorMode = "blue" then
    ((i : ℤ) * 257, (i : ℤ) * 257, gammaCurveValue gamma i)
  else
    (gammaCurveValue gamma i, gammaCurveValue gamma i, gammaCurveValue gamma i)

/-- The curve sample is monotone in `i` for positive gamma. -/
theorem gammaCurveValue_mono {gamma : ℝ} (hg : 0 < gamma) {i j : ℕ}
    (hij : i ≤ j) : gammaCurveValue gamma i ≤ gammaCurveValue gamma j := by
  unfold gammaCurveValue
  refine max_le_max le_rfl (min_le_min le_rfl (Int.floor_mono ?_))
  have hx : (0 : ℝ) ≤ (i : ℝ) / 255 := by positivity
  have hxy : (i : ℝ) / 255 ≤ (j : ℝ) / 255 := by
    apply div_le_div_of_nonneg_right ?_ (by norm_num)
    exact_mod_cast hij
  have hz : (0 : ℝ) ≤ 1 / gamma := by positivity
  have := Real.rpow_le_rpow hx hxy hz
  nlinarith [this]

/-- At `gamma = 1` the curve sample is the exact linear value `i * 257`. -/
theorem gammaCurveValue_one {i : ℕ} (h : i ≤ 255) :
    gammaCurveValue 1 i = (i : ℤ) * 257 := by
  unfold gammaCurveValue
  have h1 : ((i : ℝ) / 255) ^ ((1 : ℝ) / 1) = (i : ℝ) / 255 := by
    norm_num [Real.rpow_one]
  rw [h1]
  have h2 : (i : ℝ) / 255 * 65535 + 1 / 2 = ((i * 257 : ℤ) : ℝ) + 1 / 2 := by
    push_cast
    field_simp
    ring
  rw [h2, Int.floor_int_add]
  have h3 : ⌊(1 : ℝ) / 2⌋ = 0 := by norm_num
  rw [h3]
  have hi : (i : ℤ) ≤ 255 := by exact_mod_cast h
  omega

/-- C2: for every gamma in `[0.1, 4.4]` and every color mode, each of the
three channels of the built ramp is monotonically non-decreasing in the
index over `[0, 255]`. -/
theorem buildGammaRamp_monotone (colorMode : String) (gamma : ℝ)
    (hg1 : (0.1 : ℝ) ≤ gamma) (hg2 : gamma ≤ (4.4 : ℝ)) (i j : ℕ)
    (hij : i ≤ j) (hj : j ≤ 255) :
    (buildGammaRamp colorMode gamma i).1 ≤ (buildGammaRamp colorMode gamma j).1 ∧
    (buildGammaRamp colorMode gamma i).2.1 ≤ (buildGammaRamp colorMode gamma j).2.1 ∧
    (buildGammaRamp colorMode gamma i).2.2 ≤ (buildGammaRamp colorMode gamma j).2.2 := by
  have hg : 0 < gamma := lt_of_lt_of_le (by norm_num) hg1
  have hcurve := gammaCurveValue_mono hg hij
  have hlin : (i : ℤ) * 257 ≤ (j : ℤ) * 257 := by
    have : (i : ℤ) ≤ (j : ℤ) := by exact_mod_cast hij
    omega
  unfold buildGammaRamp
  by_cases hm : colorMode = "blue"
  · simp only [hm, if_pos]
    exact ⟨hlin, hlin, hcurve⟩
  · rw [if_neg hm, if_neg hm]
    exact ⟨hcurve, hcurve, hcurve⟩

/-- Witness for C2 at `colorMode = "all"`, `gamma = 2`, indices `3 ≤ 7`. -/
theorem buildGammaRamp_monotone_witness :
    (buildGammaRamp "all" 2 3).1 ≤ (buildGammaRamp "all" 2 7).1 :=
  (buildGammaRamp_monotone "all" 2 (by norm_num) (by norm_num) 3 7
    (by norm_num) (by norm_num)).1

/-- C3: with `gamma = 1.0` and mode `"all"` every channel at index `i` is
`round (i / 255 * 65535) = i * 257`, with value `0` at `i = 0` and exactly
`65535` at `i = 255` (no clamping artifact). -/
theorem buildGammaRamp_identity (i : ℕ) (hi : i ≤ 255) :
    buildGammaRamp "all" 1 i =
      (round ((i : ℝ) / 255 * 65535), round ((i : ℝ) / 255 * 65535),
        round ((i : ℝ) / 255 * 65535)) ∧
    buildGammaRamp "all" 1 i = ((i : ℤ) * 257, (i : ℤ) * 257, (i : ℤ) * 257) ∧
    buildGammaRamp "all" 1 0 = (0, 0, 0) ∧
    buildGammaRamp "all" 1 255 = (65535, 65535, 65535) := by
  have key : ∀ k : ℕ, k ≤ 255 →
      buildGammaRamp "all" 1 k = ((k : ℤ) * 257, (k : ℤ) * 257, (k : ℤ) * 257) := by
    intro k hk
    unfold buildGammaRamp
    rw [if_neg (by decide), gammaCurveValue_one hk]
  have hround : round ((i : ℝ) / 255 * 65535) = (i : ℤ) * 257 := by
    rw [round_eq]
    have h2 : (i : ℝ) / 255 * 65535 + 1 / 2 = ((i * 257 : ℤ) : ℝ) + 1 / 2 := by
      push_cast
      field_simp
      ring
    rw [h2, Int.floor_int_add]
    norm_num
  refine ⟨?_, key i hi, ?_, ?_⟩
  · rw [key i hi, hround]
  · simpa using key 0 (by norm_num)
  · simpa using key 255 (by norm_num)

/-- Witness for C3 at index `i = 128`. -/
theorem buildGammaRamp_identity_witness :
    buildGammaRamp "all" 1 128 =
      (round ((128 : ℕ) / 255 * 65535 : ℝ), round ((128 : ℕ) / 255 * 65535 : ℝ),
        round ((128 : ℕ) / 255 * 65535 : ℝ)) :=
  (buildGammaRamp_identity 128 (by norm_num)).1

/-- C4: in mode `"blue"` the red and green channels are the exact linear
ramp `i * 257` for every gamma value and every index, independent of
gamma; only the blue channel carries the gamma curve. -/
theorem buildGammaRamp_blue_linear (gamma : ℝ) (i : ℕ) :
    (buildGammaRamp "blue" gamma i).1 = (i : ℤ) * 257 ∧
    (buildGammaRamp "blue" gamma i).2.1 = (i : ℤ) * 257 ∧
    (buildGammaRamp "blue" gamma i).2.2 = gammaCurveValue gamma i := by
  unfold buildGammaRamp
  rw [if_pos rfl]
  exact ⟨rfl, rfl, rfl⟩

/-! ### Controller state and transitions (`GammaController`) -/

/-- The mutable fields of `GammaController` (lines 50-57): the gamma value
(`current_gamma`, a numeric literal, modelled as `ℚ`), the transient
`enabled` flag, the `color_mode` string, and `last_status`, the text last
rendered by `update_display`. -/
structure ControllerState where
  currentGamma : ℚ
  enabled : Bool
  colorMode : String
  lastStatus : String
deriving DecidableEq

/-- The observable side effects of one controller method: a
`SetDeviceGammaRamp` pass over the displays with the ramp parameters, a
config write (`save_config`, recording the persisted `gamma` and
`color_mode` fields), or a console clear-and-print (`update_display`). -/
inductive Effect where
  | applyRamp (gamma : ℚ) (colorMode : String)
  | saveConfig (gamma : ℚ) (colorMode : String)
  | redraw (text : String)
deriving DecidableEq

/-- Whether an effect is a config write. -/
def Effect.isSaveConfig : Effect → Bool
  | .saveConfig _ _ => true
  | _ => false

/-- `apply_gamma` (lines 123-128): build the ramp from `current_gamma`
when enabled, from the neutral `1.0` otherwise, and set it on all active
displays. -/
def applyGamma (s : ControllerState) : Effect :=
  Effect.applyRamp (if s.enabled then s.currentGamma else 1) s.colorMode

/-- `%.1f`-style rendering of the gamma value used by `get_status_text`
(rounds to one decimal digit; the reachable gamma values are exact
multiples of `0.1`, so tie-breaking never matters). -/
def formatGamma1 (q : ℚ) : String :=
  let n : ℤ := round (q * 10)
  toString (n / 10) ++ "." ++ toString (n % 10)

/-- `get_status_text` (lines 152-168): the status block computed from the
current state. -/
def getStatusText (s : ControllerState) : String :=
  let statusColor := if s.enabled then "🟢 ВКЛ" else "🔴 ВЫКЛ"
  let colorModeText := if s.colorMode = "all" then "Все цвета" else "Синий"
  "Gamma Controller - Работает\n\n" ++
    "Текущие настройки:\n" ++
    "  Статус: " ++ statusColor ++ "\n" ++
    "  Гамма: " ++ formatGamma1 s.currentGamma ++ "\n" ++
    "  Цвет гаммы: " ++ colorModeText ++ "\n\n" ++
    "Горячие клавиши:\n" ++
    "  F2 - Вкл/Выкл\n" ++
    "  F3 - Гамма +\n" ++
    "  F4 - Гамма -\n" ++
    "  F5 - Сменить цвет\n\n" ++
    "Для выхода закройте окно"

/-- `update_display` (lines 170-175): clear and reprint only when the
computed status text differs from `last_status`, then remember it. -/
def updateDisplay (s : ControllerState) : ControllerState × List Effect :=
  let newStatus := getStatusText s
  if newStatus ≠ s.lastStatus then
    ({ s with lastStatus := newStatus }, [Effect.redraw newStatus])
  else
    (s, [])

/-- `toggle` (lines 130-134): flip `enabled`, apply, re-render; the
enabled flag is deliberately not saved to the config. -/
def toggle (s : ControllerState) : ControllerState × List Effect :=
  let s1 := { s with enabled := !s.enabled }
  let e1 := applyGamma s1
  let r := updateDisplay s1
  (r.1, e1 :: r.2)

/-- `change_gamma` (lines 136-141): clamp the new gamma into
`[0.1, 4.4]`, apply only if enabled, save the config unconditionally,
re-render. -/
def changeGamma (s : ControllerState) (delta : ℚ) : ControllerState × List Effect :=
  let s1 := { s with currentGamma := max (0.1 : ℚ) (min (4.4 : ℚ) (s.currentGamma + delta)) }
  let e1 := if s1.enabled then [applyGamma s1] else []
  let e2 := [Effect.saveConfig s1.currentGamma s1.colorMode]
  let r := updateDisplay s1
  (r.1, e1 ++ e2 ++ r.2)

/-- Python's `list.index`: index of the first element equal to `x`, or an
exception (`none`) when `x` does not occur. -/
def listIndex (x : String) : List String → Option ℕ
  | [] => none
  | y :: ys => if y = x then some 0 else (listIndex x ys).map (· + 1)

/-- `cycle_color_mode` (lines 143-150): look up `color_mode` in
`["all", "blue"]` (a `ValueError`, modelled as `none`, when it is neither),
step to the next mode cyclically, apply only if enabled, save, re-render. -/
def cycleColorMode (s : ControllerState) : Option (ControllerState × List Effect) :=
  let modes : List String := ["all", "blue"]
  match listIndex s.colorMode modes with
  | none => none
  | some idx =>
    let s1 := { s with colorMode := modes.getD ((idx + 1) % modes.length) "all" }
    let e1 := if s1.enabled then [applyGamma s1] else []
    let e2 := [Effect.saveConfig s1.currentGamma s1.colorMode]
    let r := updateDisplay s1
    some (r.1, e1 ++ e2 ++ r.2)

/-- `reset_gamma` (lines 177-179): force `enabled := False` and apply (so
the neutral `gamma = 1.0` ramp is built and set). -/
def resetGamma (s : ControllerState) : ControllerState × Effect :=
  let s1 := { s with enabled := false }
  (s1, applyGamma s1)

/-- A sequence of `change_gamma` calls, keeping only the state. -/
def applyDeltas (s : ControllerState) (ds : List ℚ) : ControllerState :=
  ds.foldl (fun t d => (changeGamma t d).1) s

/-- `update_display` never touches `current_gamma`. -/
theorem updateDisplay_fst_currentGamma (s : ControllerState) :
    (updateDisplay s).1.currentGamma = s.currentGamma := by
  simp only [updateDisplay]
  split <;> rfl

/-- The gamma value after one `change_gamma` call is the clamp of the sum. -/
theorem changeGamma_fst_currentGamma (s : ControllerState) (delta : ℚ) :
    (changeGamma s delta).1.currentGamma =
      max (0.1 : ℚ) (min (4.4 : ℚ) (s.currentGamma + delta)) := by
  simp only [changeGamma]
  rw [updateDisplay_fst_currentGamma]

/-- Any clamped value lies in the domain. -/
theorem clamp_mem_domain (x : ℚ) :
    (0.1 : ℚ) ≤ max (0.1 : ℚ) (min (4.4 : ℚ) x) ∧
      max (0.1 : ℚ) (min (4.4 : ℚ) x) ≤ (4.4 : ℚ) :=
  ⟨le_max_left _ _, max_le (by norm_num) (min_le_left _ _)⟩

/-- After any list of deltas, the gamma value stays in `[0.1, 4.4]`. -/
theorem applyDeltas_mem_domain (ds : List ℚ) (s : ControllerState)
    (h1 : (0.1 : ℚ) ≤ s.currentGamma) (h2 : s.currentGamma ≤ (4.4 : ℚ)) :
    (0.1 : ℚ) ≤ (applyDeltas s ds).currentGamma ∧
      (applyDeltas s ds).currentGamma ≤ (4.4 : ℚ) := by
  induction ds generalizing s with
  | nil => exact ⟨h1, h2⟩
  | cons d ds ih =>
    have hstep := changeGamma_fst_currentGamma s d
    have hmem := clamp_mem_domain (s.currentGamma + d)
    exact ih (changeGamma s d).1 (hstep ▸ hmem.1) (hstep ▸ hmem.2)

/-- Starting at the top of the domain, `+0.1` steps leave the gamma value
pinned at `4.4`. -/
theorem applyDeltas_top (n : ℕ) (s : ControllerState)
    (h : s.currentGamma = (4.4 : ℚ)) :
    (applyDeltas s (List.replicate n (0.1 : ℚ))).currentGamma = (4.4 : ℚ) := by
  induction n generalizing s with
  | zero => exact h
  | succ n ih =>
    rw [List.replicate_succ]
    apply ih
    rw [changeGamma_fst_currentGamma, h]
    norm_num

/-- C5: starting anywhere in `[0.1, 4.4]`, any sequence of
`change_gamma (±0.1)` calls keeps the gamma value in `[0.1, 4.4]`; in
particular ten `+0.1` steps from `4.4` leave it at exactly `4.4`. -/
theorem changeGamma_stays_in_domain (s : ControllerState) (ds : List ℚ)
    (h1 : (0.1 : ℚ) ≤ s.currentGamma) (h2 : s.currentGamma ≤ (4.4 : ℚ))
    (hds : ∀ d ∈ ds, d = (0.1 : ℚ) ∨ d = -(0.1 : ℚ)) :
    ((0.1 : ℚ) ≤ (applyDeltas s ds).currentGamma ∧
      (applyDeltas s ds).currentGamma ≤ (4.4 : ℚ)) ∧
    (s.currentGamma = (4.4 : ℚ) → ds = List.replicate 10 (0.1 : ℚ) →
      (applyDeltas s ds).currentGamma = (4.4 : ℚ)) := by
  refine ⟨applyDeltas_mem_domain ds s h1 h2, ?_⟩
  intro htop hrep
  rw [hrep]
  exact applyDeltas_top 10 s htop

/-- Witness for C5: from `4.4`, ten `+0.1` steps end at `4.4`. -/
theorem changeGamma_stays_in_domain_witness :
    (applyDeltas ⟨(4.4 : ℚ), false, "all", ""⟩
        (List.replicate 10 (0.1 : ℚ))).currentGamma = (4.4 : ℚ) :=
  (changeGamma_stays_in_domain ⟨(4.4 : ℚ), false, "all", ""⟩
      (List.replicate 10 (0.1 : ℚ)) (by norm_num) (by norm_num)
      (by intro d hd; rw [List.mem_replicate] at hd; exact Or.inl hd.2)).2
    rfl rfl

/-- C6: `change_gamma` writes the config exactly once regardless of the
enabled flag, `toggle` never writes it, and `cycle_color_mode` (whenever
it returns instead of raising) writes it exactly once. -/
theorem saveConfig_discipline (s : ControllerState) (delta : ℚ) :
    (changeGamma s delta).2.countP Effect.isSaveConfig = 1 ∧
    (toggle s).2.countP Effect.isSaveConfig = 0 ∧
    (cycleColorMode s).map (fun r => r.2.countP Effect.isSaveConfig) =
      (cycleColorMode s).map (fun _ => 1) := by
  refine ⟨?_, ?_, ?_⟩
  · simp only [changeGamma, updateDisplay]
    split <;> split <;>
      simp [List.countP_append, List.countP_cons, Effect.isSaveConfig, applyGamma]
  · simp only [toggle, updateDisplay]
    split <;>
      simp [List.countP_cons, Effect.isSaveConfig, applyGamma]
  · simp only [cycleColorMode]
    cases listIndex s.colorMode ["all", "blue"] with
    | none => rfl
    | some idx =>
      simp only [Option.map_some, Option.some.injEq, updateDisplay]
      split <;> split <;>
        simp [List.countP_append, List.countP_cons, Effect.isSaveConfig, applyGamma]

/-- C8: from every prior state, `reset_gamma` leaves the controller
disabled and applies the ramp built with the neutral gamma `1.0`. -/
theorem resetGamma_neutral (s : ControllerState) :
    (resetGamma s).1.enabled = false ∧
    (resetGamma s).2 = Effect.applyRamp 1 s.colorMode := by
  exact ⟨rfl, rfl⟩

/-- C9: `update_display` redraws exactly when the computed status text
differs from the last rendered text, and a second call on the resulting
state never redraws — so rendering the same state twice yields exactly
one redraw. -/
theorem updateDisplay_redraw_iff (s : ControllerState) :
    ((updateDisplay s).2 =
      if getStatusText s = s.lastStatus then []
      else [Effect.redraw (getStatusText s)]) ∧
    (updateDisplay (updateDisplay s).1).2 = [] := by
  have hls : ∀ x : String,
      getStatusText { s with lastStatus := x } = getStatusText s := fun _ => rfl
  by_cases h : getStatusText s = s.lastStatus
  · refine ⟨?_, ?_⟩
    · simp [updateDisplay, h]
    · simp [updateDisplay, h]
  · refine ⟨?_, ?_⟩
    · simp [updateDisplay, h]
    · simp [updateDisplay, h, hls]

/-! ### Ramp application (`_set_ramp_on_all_active_displays`) -/

/-- One record returned by `EnumDisplayDevicesW`: its `DeviceName` and
whether `StateFlags` has the `DISPLAY_DEVICE_ACTIVE` bit. -/
structure DisplayDevice where
  deviceName : String
  stateActive : Bool
deriving DecidableEq

/-- Abstract outcomes of the WinAPI calls made by the apply loop: the
finite enumeration produced by `EnumDisplayDevicesW`, whether
`CreateDCW "DISPLAY" name` returns a handle, what `SetDeviceGammaRamp`
returns on that handle, and whether `GetDC None` returns a handle for the
fallback. -/
structure DisplayEnv where
  devices : List DisplayDevice
  createDC : String → Bool
  setDeviceGammaRamp : String → Bool
  getDC : Bool

/-- The loop-carried data of `_set_ramp_on_all_active_displays`: the
`any_applied` flag, the devices on which `SetDeviceGammaRamp` returned
success, and the device contexts released by `DeleteDC`. -/
structure LoopState where
  anyApplied : Bool
  succeededOn : List String
  released : List String
deriving DecidableEq

/-- One iteration of the `while` loop (lines 100-114): skip inactive
devices; on an active device, when `CreateDCW` yields a handle, call
`SetDeviceGammaRamp`, set `any_applied = True` (the call's result is
ignored), and release the context. -/
def loopStep (env : DisplayEnv) (st : LoopState) (d : DisplayDevice) : LoopState :=
  if d.stateActive then
    if env.createDC d.deviceName then
      { anyApplied := true,
        succeededOn := st.succeededOn ++
          (if env.setDeviceGammaRamp d.deviceName then [d.deviceName] else []),
        released := st.released ++ [d.deviceName] }
    else st
  else st

/-- The apply-loop result: the final `any_applied`, and the fallback
branch (lines 116-121) entered exactly when `any_applied` is still false;
the fallback apply itself happens only when `GetDC` yields a handle. -/
structure ApplyResult where
  anyApplied : Bool
  succeededOn : List String
  released : List String
  fallbackTaken : Bool
  fallbackApplied : Bool
deriving DecidableEq

/-- `_set_ramp_on_all_active_displays` (lines 96-121) over an abstract
`DisplayEnv`. -/
def setRampOnAllActiveDisplays (env : DisplayEnv) : ApplyResult :=
  let st := env.devices.foldl (loopStep env) ⟨false, [], []⟩
  { anyApplied := st.anyApplied,
    succeededOn := st.succeededOn,
    released := st.released,
    fallbackTaken := !st.anyApplied,
    fallbackApplied := !st.anyApplied && env.getDC }

/-- The folded `any_applied` flag is the disjunction of the per-device
acquisition outcomes over the initial flag. -/
theorem foldl_loopStep_anyApplied (env : DisplayEnv) (ds : List DisplayDevice)
    (st : LoopState) :
    (ds.foldl (loopStep env) st).anyApplied =
      (st.anyApplied ||
        ds.any fun d => d.stateActive && env.createDC d.deviceName) := by
  induction ds generalizing st with
  | nil => simp
  | cons d ds ih =>
    rw [List.foldl_cons, ih, List.any_cons]
    unfold loopStep
    by_cases ha : d.stateActive
    · by_cases hc : env.createDC d.deviceName
      · simp [ha, hc]
      · simp [ha, hc]
    · simp [ha]

/-- Along the fold, a nonempty success list forces `any_applied`. -/
theorem foldl_loopStep_succeeded (env : DisplayEnv) (ds : List DisplayDevice)
    (st : LoopState) (hst : st.succeededOn ≠ [] → st.anyApplied = true) :
    (ds.foldl (loopStep env) st).succeededOn ≠ [] →
      (ds.foldl (loopStep env) st).anyApplied = true := by
  induction ds generalizing st with
  | nil => exact hst
  | cons d ds ih =>
    rw [List.foldl_cons]
    apply ih
    unfold loopStep
    by_cases ha : d.stateActive
    · by_cases hc : env.createDC d.deviceName
      · simp [ha, hc]
      · simpa [ha, hc] using hst
    · simpa [ha] using hst

/-- C1 corrected: `any_applied` is set exactly when some enumerated active
device yielded a device context (an apply was *attempted* — the result of
`SetDeviceGammaRamp` is ignored); the fallback is entered exactly when no
active device yielded a context (zero active displays, or every
acquisition failed); and when at least one apply on an active display
succeeded the fallback is not taken. -/
theorem setRamp_fallback_exactly_when_no_context (env : DisplayEnv) :
    ((setRampOnAllActiveDisplays env).anyApplied = true ↔
      ∃ d ∈ env.devices, d.stateActive = true ∧ env.createDC d.deviceName = true) ∧
    ((setRampOnAllActiveDisplays env).fallbackTaken = true ↔
      ¬ ∃ d ∈ env.devices, d.stateActive = true ∧ env.createDC d.deviceName = true) ∧
    ((setRampOnAllActiveDisplays env).succeededOn ≠ [] →
      (setRampOnAllActiveDisplays env).fallbackTaken = false) := by
  have hany : (setRampOnAllActiveDisplays env).anyApplied =
      (env.devices.any fun d => d.stateActive && env.createDC d.deviceName) := by
    simp only [setRampOnAllActiveDisplays]
    rw [foldl_loopStep_anyApplied]
    rfl
  have hiff : (setRampOnAllActiveDisplays env).anyApplied = true ↔
      ∃ d ∈ env.devices, d.stateActive = true ∧ env.createDC d.deviceName = true := by
    rw [hany, List.any_eq_true]
    simp [Bool.and_eq_true]
  refine ⟨hiff, ?_, ?_⟩
  · have hfb : (setRampOnAllActiveDisplays env).fallbackTaken =
        !(setRampOnAllActiveDisplays env).anyApplied := rfl
    rw [hfb, Bool.not_eq_true', ← hiff]
    simp
  · intro hne
    have happ : (setRampOnAllActiveDisplays env).anyApplied = true := by
      have := foldl_loopStep_succeeded env env.devices ⟨false, [], []⟩ (by intro h; cases h rfl)
      exact this hne
    have hfb : (setRampOnAllActiveDisplays env).fallbackTaken =
        !(setRampOnAllActiveDisplays env).anyApplied := rfl
    rw [hfb, happ]
    rfl

/-- Witness for the corrected C1: with one active display whose context
acquisition and apply both succeed, the fallback is not taken. -/
theorem setRamp_fallback_witness :
    (setRampOnAllActiveDisplays
        ⟨[⟨"DISPLAY1", true⟩], fun _ => true, fun _ => true, true⟩).fallbackTaken =
      false :=
  (setRamp_fallback_exactly_when_no_context
      ⟨[⟨"DISPLAY1", true⟩], fun _ => true, fun _ => true, true⟩).2.2 (by decide)

/-- Counterexample to C1 as stated: with one active display whose context
acquisition succeeds but whose `SetDeviceGammaRamp` call fails, no apply
succeeded yet `any_applied` is `true` — the flag does not track whether at
least one ramp apply succeeded. -/
theorem setRamp_anyApplied_not_success_tracking :
    ¬ ((setRampOnAllActiveDisplays
          ⟨[⟨"DISPLAY1", true⟩], fun _ => true, fun _ => false, true⟩).anyApplied = true ↔
        (setRampOnAllActiveDisplays
          ⟨[⟨"DISPLAY1", true⟩], fun _ => true, fun _ => false, true⟩).succeededOn ≠ []) := by
  decide

/-! ### Hotkey polling loop (`main`, lines 189-215) -/

/-- The four commands dispatched by the polling loop, one per monitored
key. -/
inductive Command where
  | toggleEnabled
  | increaseGamma
  | decreaseGamma
  | cycleColor
deriving DecidableEq

/-- The key-to-command dispatch of the loop body (lines 204-211): F2
(0x71) toggles, F3 (0x72) increases, F4 (0x73) decreases, F5 (0x74)
cycles the color mode. -/
def hotkeyCommand (keyCode : ℕ) : Option Command :=
  if keyCode = 0x71 then some Command.toggleEnabled
  else if keyCode = 0x72 then some Command.increaseGamma
  else if keyCode = 0x73 then some Command.decreaseGamma
  else if keyCode = 0x74 then some Command.cycleColor
  else none

/-- The per-key edge detector of the polling loop: `wasPressed` is the
latched `key_states[key_code]` from the previous tick, `samples` the
successive values of `GetAsyncKeyState(key_code) & 0x8000`; the command is
dispatched on a tick exactly when `current_state and not key_states[...]`
(line 202), and the latch is then updated (line 213). -/
def pollKey (cmd : Command) : Bool → List Bool → List Command
  | _, [] => []
  | wasPressed, current :: rest =>
    (if current && !wasPressed then [cmd] else []) ++ pollKey cmd current rest

/-- The number of rising edges of a sampled key-state sequence: positions
where the sample is `true` and the previous sample (initially `false`, as
`key_states` starts all-`False` on line 190-195) was `false`. -/
def risingEdgeCount (wasPressed : Bool) (samples : List Bool) : ℕ :=
  ((wasPressed :: samples).zip samples).countP fun p => !p.1 && p.2

/-- The poller dispatches once per rising edge, for every latch value. -/
theorem pollKey_length (cmd : Command) (wasPressed : Bool) (samples : List Bool) :
    (pollKey cmd wasPressed samples).length = risingEdgeCount wasPressed samples := by
  induction samples generalizing wasPressed with
  | nil => rfl
  | cons current rest ih =>
    unfold pollKey risingEdgeCount
    rw [List.length_append, ih current]
    unfold risingEdgeCount
    rw [List.zip_cons_cons, List.countP_cons]
    by_cases h : current && !wasPressed
    · rw [if_pos h]
      have h2 : (!wasPressed && current) = true := by
        rw [Bool.and_comm]; exact h
      rw [h2]
      simp [Nat.add_comm]
    · rw [if_neg h]
      have h2 : (!wasPressed && current) = false := by
        rw [Bool.and_comm]; exact Bool.of_not_eq_true h
      rw [h2]
      simp

/-- C7: for every per-key sampled sequence the poller dispatches the
key's command exactly once per rising edge (sampled `true` after a
sampled/latched `false`); a tick whose previous tick already had the key
pressed never dispatches; and the sequence
`[up, down, down, down, up, up]` dispatches exactly once. -/
theorem pollKey_edge_triggered (cmd : Command) (samples : List Bool) :
    ((pollKey cmd false samples).length = risingEdgeCount false samples) ∧
    (∀ rest : List Bool, pollKey cmd true (true :: rest) = pollKey cmd true rest) ∧
    (pollKey cmd false [false, true, true, true, false, false] = [cmd]) := by
  refine ⟨pollKey_length cmd false samples, ?_, ?_⟩
  · intro rest
    show (if true && !true then [cmd] else []) ++ pollKey cmd true rest =
      pollKey cmd true rest
    simp
  · cases cmd <;> rfl

/-! ### Config load and the invalid color-mode trap -/

/-- The durable `{gamma, color_mode}` configuration. -/
structure Config where
  gamma : ℚ
  colorMode : String
deriving DecidableEq

/-- `DEFAULT_CONFIG`'s durable fields (lines 15-17): gamma `2.0`, color
mode `"all"`. -/
def defaultConfig : Config := ⟨2, "all"⟩

/-- The durable keys present in a stored config file (each may be
missing). -/
structure StoredConfig where
  gamma : Option ℚ
  colorMode : Option String
deriving DecidableEq

/-- `load_config` (lines 59-63): with no file, the defaults; otherwise the
stored keys merged over the defaults (`{**DEFAULT_CONFIG, **json.load(f)}`),
with no validation of `color_mode`. -/
def loadConfig (file : Option StoredConfig) : Config :=
  match file with
  | none => defaultConfig
  | some st => ⟨st.gamma.getD defaultConfig.gamma,
      st.colorMode.getD defaultConfig.colorMode⟩

/-- C10: a state whose color mode is neither `"all"` nor `"blue"` is
reachable (`load_config` merges a stored `color_mode` over the defaults
without validating it); on such a state `cycle_color_mode` raises
(`list.index` finds no match) instead of cycling, while
`_build_gamma_ramp` silently treats the mode as `"all"`. -/
theorem invalidColorMode_cycle_raises (mode : String) (gamma : ℝ) (i : ℕ)
    (s : ControllerState) (hall : mode ≠ "all") (hblue : mode ≠ "blue")
    (hs : s.colorMode = mode) :
    (loadConfig (some ⟨none, some mode⟩)).colorMode = mode ∧
    cycleColorMode s = none ∧
    buildGammaRamp mode gamma i = buildGammaRamp "all" gamma i := by
  refine ⟨rfl, ?_, ?_⟩
  · simp only [cycleColorMode, listIndex, hs]
    rw [if_neg (fun h => hall h.symm), if_neg (fun h => hblue h.symm)]
    rfl
  · unfold buildGammaRamp
    rw [if_neg hblue, if_neg (by decide)]

/-- Witness for C10 at the stored mode `"red"`. -/
theorem invalidColorMode_cycle_raises_witness :
    cycleColorMode ⟨2, false, "red", ""⟩ = none :=
  (invalidColorMode_cycle_raises "red" 1 0 ⟨2, false, "red", ""⟩
    (by decide) (by decide) rfl).2.1

end GammaCtl
